import Mathlib

/-!
Verification of the generation-orchestration core of the assistant
repository, shallowly embedded in Lean.

Embedded source (python):
- src/modules/ai/ai_manager.py        (class AIManager)
- src/modules/vector_db/rag_manager.py (class RAGManager)
- src/modules/learning/memory.py      (class Memory)
- src/modules/learning/learning_manager.py (class LearningManager)

Modelling conventions:
- Python floats are modelled as rationals; every float arising here is a
  small dyadic or decimal value on which the modelled comparisons agree
  with IEEE doubles.
- Backend network calls are modelled as pure response functions plus an
  availability flag, mirroring that both LocalLLM and CloudLLM map every
  internal failure to None and that is_available is a separate probe.
- Python `s or fallback` / `if response:` treat None and the empty string
  as falsy, which is modelled explicitly.
- File IO (json persistence) is dropped; the in-memory state transition
  of each mutating method is kept exactly.
-/

/- ===== AIManager._should_use_cloud (ai_manager.py lines 142-158) ===== -/

/-- Keyword list from AIManager._should_use_cloud. -/
def complex_keywords : List String :=
  ["analyze in detail", "complex analysis", "detailed explanation",
   "comprehensive", "research paper", "creative writing", "translate entire"]

/-- ASCII lower-casing of one character, the effect of str.lower() on the
ASCII strings occurring here. -/
def asciiLower (c : Char) : Char :=
  if 65 ≤ c.toNat ∧ c.toNat ≤ 90 then Char.ofNat (c.toNat + 32) else c

/-- Contiguous-substring test on character lists, the effect of the python
`sub in s` test on strings. -/
def charsContain (sub : List Char) : List Char → Bool
  | [] => sub.isEmpty
  | a :: l => sub.isPrefixOf (a :: l) || charsContain sub l

/-- Number of entries of complex_keywords that occur (case-insensitively)
in the prompt: the value of `sum(1 for keyword in complex_keywords if
keyword in prompt_lower)`. -/
def keywordMatches (prompt : String) : Nat :=
  (complex_keywords.filter
    (fun kw => charsContain kw.toList (prompt.toList.map asciiLower))).length

/-- Raw complexity score: keyword matches plus 1 when len(prompt) > 500. -/
def complexity_score (prompt : String) : Nat :=
  keywordMatches prompt + (if prompt.length > 500 then 1 else 0)

/-- Normalized score: `min(complexity_score / 5.0, 1.0)`. -/
def normalized_score (prompt : String) : ℚ :=
  min ((complexity_score prompt : ℚ) / 5) 1

/- ===== Backends (local_llm.py, cloud_llm.py), abstracted ===== -/

/-- Chat message, the dicts `{role: ..., content: ...}` of ai_manager.py. -/
structure Turn where
  role : String
  content : String
deriving DecidableEq

/-- Abstract backend: is_available probe plus pure response functions.
LocalLLM and CloudLLM map every internal error, non-200 status, missing
key and disabled state to None, so a backend is summarised by its
availability flag and the Option-valued responses. -/
structure Backend where
  available : Bool
  genResp : String → Option String → Option String
  chatResp : List Turn → Option String

/-- Label of one backend invocation, recorded so theorems can speak about
which backends a call path invoked. -/
inductive BackendCall where
  | cloudGen
  | localGen
  | cloudChat
  | localChat
deriving DecidableEq

/- ===== AIManager (ai_manager.py) ===== -/

/-- State of AIManager after __init__: mode (from AI_MODE env or config),
decision_threshold, the personal-injection flag, and the two backends.
The field personalContext abstracts the env-var collection performed by
_build_system_prompt (lines 32-54): it is the Option-valued block that
the collection loop would produce (None when nothing is collected). -/
structure AIManager where
  mode : String
  decision_threshold : ℚ
  personal_injection_enabled : Bool
  personalContext : Option String
  local_llm : Backend
  cloud_llm : Backend

/-- AIManager._build_system_prompt: None when injection is disabled,
otherwise the collected personal block (None when nothing collected). -/
def AIManager.build_system_prompt (m : AIManager) : Option String :=
  if m.personal_injection_enabled then m.personalContext else none

/-- System-prompt resolution at the top of AIManager.generate: a
caller-supplied system prompt wins, otherwise _build_system_prompt. -/
def AIManager.resolve_system (m : AIManager) (system : Option String) : Option String :=
  match system with
  | some s => some s
  | none => m.build_system_prompt

/-- AIManager._should_use_cloud: `normalized_score >= decision_threshold`. -/
def AIManager.should_use_cloud (m : AIManager) (prompt : String) : Bool :=
  decide (normalized_score prompt ≥ m.decision_threshold)

/-- Python `response or fallback` where response is None or a string:
None and the empty string are falsy. -/
def pyOr (r : Option String) (fallback : String) : String :=
  match r with
  | some s => if s = "" then fallback else s
  | none => fallback

/-- Python truthiness filter used by `if response: return response`:
keeps a response only when it is a non-empty string. -/
def truthyResp (r : Option String) : Option String :=
  match r with
  | some s => if s = "" then none else some s
  | none => none

/-- One hybrid-branch attempt on a backend: call generate only when
is_available() holds, and keep only a truthy response. The first
component records whether the backend was invoked. -/
def Backend.tryGen (b : Backend) (c : BackendCall) (prompt : String)
    (system : Option String) : List BackendCall × Option String :=
  if b.available then ([c], truthyResp (b.genResp prompt system)) else ([], none)

/-- Symmetric attempt for chat. -/
def Backend.tryChat (b : Backend) (c : BackendCall) (msgs : List Turn) :
    List BackendCall × Option String :=
  if b.available then ([c], truthyResp (b.chatResp msgs)) else ([], none)

/-- Fixed fallback string returned when no backend produced a response
(ai_manager.py lines 93 and 140). -/
def unableFallback : String := "I\x27m currently unable to process your request."

/-- Hybrid branch of AIManager.generate: try the preferred backend, then
the other, then the fixed fallback. -/
def hybridGen (first second : Backend) (c1 c2 : BackendCall) (prompt : String)
    (system : Option String) : String × List BackendCall :=
  let r1 := first.tryGen c1 prompt system
  match r1.2 with
  | some resp => (resp, r1.1)
  | none =>
    let r2 := second.tryGen c2 prompt system
    match r2.2 with
    | some resp => (resp, r1.1 ++ r2.1)
    | none => (unableFallback, r1.1 ++ r2.1)

/-- Hybrid branch of AIManager.chat. -/
def hybridChat (first second : Backend) (c1 c2 : BackendCall) (msgs : List Turn) :
    String × List BackendCall :=
  let r1 := first.tryChat c1 msgs
  match r1.2 with
  | some resp => (resp, r1.1)
  | none =>
    let r2 := second.tryChat c2 msgs
    match r2.2 with
    | some resp => (resp, r1.1 ++ r2.1)
    | none => (unableFallback, r1.1 ++ r2.1)

/-- AIManager.generate (ai_manager.py lines 56-93). Returns the reply
string together with the list of backend invocations performed. -/
def AIManager.generate (m : AIManager) (prompt : String) (system : Option String)
    (force_cloud : Bool) : String × List BackendCall :=
  let sys := m.resolve_system system
  if m.mode = "local" then
    (pyOr (m.local_llm.genResp prompt sys)
      "I\x27m having trouble processing that request.", [BackendCall.localGen])
  else if m.mode = "cloud" then
    (pyOr (m.cloud_llm.genResp prompt sys)
      "I\x27m having trouble connecting to my cloud services.", [BackendCall.cloudGen])
  else if m.mode = "hybrid" then
    if force_cloud || m.should_use_cloud prompt then
      hybridGen m.cloud_llm m.local_llm BackendCall.cloudGen BackendCall.localGen prompt sys
    else
      hybridGen m.local_llm m.cloud_llm BackendCall.localGen BackendCall.cloudGen prompt sys
  else (unableFallback, [])

/-- AIManager.chat (ai_manager.py lines 95-140). The possible
personal-injection prepend of a system message is performed first; in
hybrid mode the complexity score is computed on the content of the last
message of the (possibly extended) list, or the empty string when the
list is empty. -/
def AIManager.chat (m : AIManager) (messages : List Turn) (force_cloud : Bool) :
    String × List BackendCall :=
  let msgs :=
    if m.personal_injection_enabled && !(messages.any (fun t => t.role == "system")) then
      match m.build_system_prompt with
      | some sp => { role := "system", content := sp } :: messages
      | none => messages
    else messages
  if m.mode = "local" then
    (pyOr (m.local_llm.chatResp msgs)
      "I\x27m having trouble processing that request.", [BackendCall.localChat])
  else if m.mode = "cloud" then
    (pyOr (m.cloud_llm.chatResp msgs)
      "I\x27m having trouble connecting to my cloud services.", [BackendCall.cloudChat])
  else if m.mode = "hybrid" then
    let last_message := match msgs.getLast? with
      | some t => t.content
      | none => ""
    if force_cloud || m.should_use_cloud last_message then
      hybridChat m.cloud_llm m.local_llm BackendCall.cloudChat BackendCall.localChat msgs
    else
      hybridChat m.local_llm m.cloud_llm BackendCall.localChat BackendCall.cloudChat msgs
  else (unableFallback, [])

/- ===== RAGManager._build_context (rag_manager.py lines 38-52) ===== -/

/-- Character budget set in RAGManager.__init__ (max_context_length). -/
def max_context_length : Nat := 2000

/-- Selection loop of RAGManager._build_context: walk the ranked document
texts accumulating total_length, stop at the first document whose length
would push the running total over the budget. -/
def build_context_parts (budget : Nat) : List String → Nat → List String
  | [], _ => []
  | doc :: docs, total =>
    if total + doc.length > budget then []
    else doc :: build_context_parts budget docs (total + doc.length)

/-- Python sep.join. -/
def joinSep (sep : String) : List String → String
  | [] => ""
  | [d] => d
  | d :: d2 :: ds => d ++ sep ++ joinSep sep (d2 :: ds)

/-- RAGManager._build_context: the selected documents joined by a blank
line. -/
def build_context (budget : Nat) (docs : List String) : String :=
  joinSep "\n\n" (build_context_parts budget docs 0)

/-- Total text length of a document list. -/
def sumLen (l : List String) : Nat := (l.map String.length).sum

/- ===== Memory (memory.py) and LearningManager (learning_manager.py) ===== -/

/-- Python slice `l[-n:]`: for n = 0 this is `l[0:]`, the whole list;
for n > 0 it is the last min(n, len(l)) elements. -/
def pySliceLast {α : Type} (n : Nat) (l : List α) : List α :=
  if n = 0 then l else l.rtake n

/-- One record of Memory.conversations. The timestamp produced by
datetime.now() is an external input and is passed in by the caller. -/
structure ConversationEntry where
  timestamp : String
  user : String
  assistant : String
  metadata : List (String × String)
deriving DecidableEq

/-- In-memory state of the Memory class relevant to the conversation log
and preferences: the configured cap, the log, and the preference map.
Preference values are numeric (modelled as rationals). -/
structure Memory where
  max_history : Nat
  conversations : List ConversationEntry
  user_preferences : String → Option ℚ

/-- Trimming step of Memory._save_conversations: when the log exceeds
max_history, keep `conversations[-max_history:]`. -/
def saveList {α : Type} (cap : Nat) (l : List α) : List α :=
  if l.length > cap then pySliceLast cap l else l

/-- Memory._save_conversations (state effect; the json write is IO). -/
def Memory.save_conversations (mem : Memory) : Memory :=
  { mem with conversations := saveList mem.max_history mem.conversations }

/-- Memory.add_conversation: append the new record, then save (which
trims to the cap). -/
def Memory.add_conversation (mem : Memory) (now : String) (user_input : String)
    (assistant_response : String) (metadata : List (String × String)) : Memory :=
  Memory.save_conversations
    { mem with conversations :=
        mem.conversations ++
          [{ timestamp := now, user := user_input,
             assistant := assistant_response, metadata := metadata }] }

/-- Appending a prebuilt record, used to fold sequences of
add_conversation calls. -/
def Memory.appendEntry (mem : Memory) (e : ConversationEntry) : Memory :=
  mem.add_conversation e.timestamp e.user e.assistant e.metadata

/-- Memory.get_recent_conversations: `self.conversations[-limit:]`. -/
def Memory.get_recent_conversations (mem : Memory) (limit : Nat) : List ConversationEntry :=
  pySliceLast limit mem.conversations

/-- Memory.get_preference: dict get with caller-supplied default. -/
def Memory.get_preference (mem : Memory) (key : String) (default : ℚ) : ℚ :=
  (mem.user_preferences key).getD default

/-- Memory.set_preference: unconditional overwrite (state effect). -/
def Memory.set_preference (mem : Memory) (key : String) (value : ℚ) : Memory :=
  { mem with user_preferences := fun k => if k = key then some value else mem.user_preferences k }

/-- Python int() applied to a rational: truncation toward zero. -/
def pyInt (q : ℚ) : ℤ := q.num.tdiv (q.den : ℤ)

/-- LearningManager._update_preferences (learning_manager.py lines 38-46):
when the interaction metadata carries preferred_voice_rate, smooth the
stored voice_rate toward it with the configured learning rate, starting
from the hard default 175, and store the int-truncated result. -/
def LearningManager.update_preferences (learning_rate : ℚ) (mem : Memory)
    (metadata : List (String × ℚ)) : Memory :=
  if metadata = [] then mem
  else
    match metadata.lookup "preferred_voice_rate" with
    | some new_rate =>
      let current := mem.get_preference "voice_rate" 175
      let updated := current * (1 - learning_rate) + new_rate * learning_rate
      mem.set_preference "voice_rate" ((pyInt updated : ℤ) : ℚ)
    | none => mem

/- ===== Claim C1 ===== -/

/-- Prompt with exactly three distinct complexity keywords and more than
500 characters. -/
def promptThreeKw : String :=
  "comprehensive research paper creative writing " ++ String.mk (List.replicate 500 'a')

/-- Prompt with four distinct complexity keywords and more than 500
characters. -/
def promptFourKw : String :=
  "comprehensive research paper creative writing complex analysis " ++
    String.mk (List.replicate 500 'a')

set_option maxRecDepth 40000 in
/-- C1 counterexample: a prompt with exactly 3 distinct complexity
keywords and more than 500 characters has score 4/5 = 0.8, not 1.0. -/
theorem c1_counterexample :
    3 ≤ keywordMatches promptThreeKw ∧ 500 < promptThreeKw.length ∧
      normalized_score promptThreeKw ≠ 1 := by
  refine ⟨by decide, by decide, ?_⟩
  have h : complexity_score promptThreeKw = 4 := by decide
  rw [normalized_score, h]
  rw [show ((4 : ℕ) : ℚ) = 4 by norm_num]
  rw [min_eq_left (by norm_num : (4 : ℚ) / 5 ≤ 1)]
  norm_num

/-- C1 (amended): a prompt with at least 4 distinct complexity keywords
and length over 500 characters yields normalized score exactly 1, because
the raw score reaches the denominator 5 and is clamped. -/
theorem c1_amended (prompt : String) (h4 : 4 ≤ keywordMatches prompt)
    (hlen : 500 < prompt.length) : normalized_score prompt = 1 := by
  have h5 : (5 : ℕ) ≤ complexity_score prompt := by
    rw [complexity_score, if_pos hlen]
    omega
  rw [normalized_score]
  have h1 : (1 : ℚ) ≤ (complexity_score prompt : ℚ) / 5 := by
    rw [le_div_iff₀ (by norm_num)]
    calc (1 : ℚ) * 5 = ((5 : ℕ) : ℚ) := by norm_num
    _ ≤ _ := by exact_mod_cast h5
  exact min_eq_right h1

set_option maxRecDepth 40000 in
/-- C1 witness: the amended theorem applied to a concrete prompt with 4
keywords and length over 500. -/
theorem c1_amended_witness :
    4 ≤ keywordMatches promptFourKw ∧ 500 < promptFourKw.length ∧
      normalized_score promptFourKw = 1 :=
  ⟨by decide, by decide, c1_amended promptFourKw (by decide) (by decide)⟩

/- ===== Claims C2, C3, C5, C10 ===== -/

/-- A hybrid-branch attempt yields no response when the backend is
unavailable or its (truthiness-filtered) response is absent. -/
theorem tryGen_none (b : Backend) (c : BackendCall) (p : String) (s : Option String)
    (h : b.available = false ∨ truthyResp (b.genResp p s) = none) :
    (b.tryGen c p s).2 = none := by
  rcases h with h | h
  · simp [Backend.tryGen, h]
  · rw [Backend.tryGen]
    split <;> simp [h]

/-- When both backends of the hybrid branch are unavailable in the sense
of the orchestrator (probe false, or response absent or empty), the
branch returns the fixed fallback string. -/
theorem hybridGen_both_unavailable (first second : Backend) (c1 c2 : BackendCall)
    (p : String) (s : Option String)
    (h1 : first.available = false ∨ truthyResp (first.genResp p s) = none)
    (h2 : second.available = false ∨ truthyResp (second.genResp p s) = none) :
    (hybridGen first second c1 c2 p s).1 = unableFallback := by
  have e1 := tryGen_none first c1 p s h1
  have e2 := tryGen_none second c2 p s h2
  simp [hybridGen, e1, e2]

/-- C2: in hybrid mode, whenever cloud and local are both Unavailable
(probe false, or generate yielding an absent or empty response), generate
returns exactly the fixed fallback string; the embedding is total, so no
exception reaches the caller. -/
theorem c2_hybrid_both_unavailable (m : AIManager) (prompt : String)
    (system : Option String) (force_cloud : Bool)
    (hm : m.mode = "hybrid")
    (hc : m.cloud_llm.available = false ∨
      truthyResp (m.cloud_llm.genResp prompt (m.resolve_system system)) = none)
    (hl : m.local_llm.available = false ∨
      truthyResp (m.local_llm.genResp prompt (m.resolve_system system)) = none) :
    (m.generate prompt system force_cloud).1 = unableFallback := by
  rw [AIManager.generate]
  simp only [hm]
  cases hfc : (force_cloud || m.should_use_cloud prompt) <;>
    simp [hfc, hybridGen_both_unavailable _ _ _ _ _ _ hc hl,
      hybridGen_both_unavailable _ _ _ _ _ _ hl hc]

/-- Backend that is not available and never answers. -/
def bUnavail : Backend := ⟨false, fun _ _ => none, fun _ => none⟩

/-- Backend that is available but returns the empty string. -/
def bEmptyResp : Backend := ⟨true, fun _ _ => some "", fun _ => none⟩

/-- Backend that is available and answers "hello". -/
def bHello : Backend := ⟨true, fun _ _ => some "hello", fun _ => some "hello"⟩

/-- Hybrid manager whose cloud backend is down and whose local backend
returns only empty responses. -/
def mgrC2 : AIManager := ⟨"hybrid", 1/2, false, none, bEmptyResp, bUnavail⟩

/-- C2 witness: the theorem applied to a concrete hybrid manager with an
unavailable cloud backend and an empty-answering local backend. -/
theorem c2_witness :
    mgrC2.mode = "hybrid" ∧
    (mgrC2.cloud_llm.available = false ∨
      truthyResp (mgrC2.cloud_llm.genResp "hello" (mgrC2.resolve_system none)) = none) ∧
    (mgrC2.local_llm.available = false ∨
      truthyResp (mgrC2.local_llm.genResp "hello" (mgrC2.resolve_system none)) = none) ∧
    (mgrC2.generate "hello" none false).1 = unableFallback :=
  ⟨rfl, Or.inl rfl, Or.inr rfl,
    c2_hybrid_both_unavailable mgrC2 "hello" none false rfl (Or.inl rfl) (Or.inr rfl)⟩

/-- Local-mode manager with a local backend answering "hello". -/
def mgrC3 : AIManager := ⟨"local", 1/2, false, none, bHello, bUnavail⟩

/-- C3 counterexample: chat on the empty turn sequence does not signal
any InvalidRequest condition; in local mode it invokes the local backend
and returns its response verbatim. -/
theorem c3_counterexample :
    (mgrC3.chat [] false).1 = "hello" ∧ (mgrC3.chat [] false).2 = [BackendCall.localChat] := by
  decide

/-- C3 (amended): chat with an empty turn sequence is not rejected; in
hybrid mode (personal injection off) the last-turn content is taken to be
the empty string and the call dispatches to the backends as usual. -/
theorem c3_amended (m : AIManager) (force_cloud : Bool)
    (hm : m.mode = "hybrid") (hpi : m.personal_injection_enabled = false) :
    m.chat [] force_cloud =
      if force_cloud || m.should_use_cloud "" then
        hybridChat m.cloud_llm m.local_llm BackendCall.cloudChat BackendCall.localChat []
      else
        hybridChat m.local_llm m.cloud_llm BackendCall.localChat BackendCall.cloudChat [] := by
  rw [AIManager.chat]
  simp [hm, hpi]

/-- Hybrid manager used for the C3 witness. -/
def mgrC3h : AIManager := ⟨"hybrid", 1/2, false, none, bHello, bUnavail⟩

/-- C3 witness: the amended theorem applied to a concrete hybrid manager. -/
theorem c3_amended_witness :
    mgrC3h.mode = "hybrid" ∧ mgrC3h.personal_injection_enabled = false ∧
    mgrC3h.chat [] false =
      (if false || mgrC3h.should_use_cloud "" then
        hybridChat mgrC3h.cloud_llm mgrC3h.local_llm BackendCall.cloudChat BackendCall.localChat []
      else
        hybridChat mgrC3h.local_llm mgrC3h.cloud_llm BackendCall.localChat BackendCall.cloudChat []) :=
  ⟨rfl, rfl, c3_amended mgrC3h false rfl rfl⟩

/-- C5: in hybrid mode with force_cloud unset, a prompt whose normalized
score equals the decision threshold takes the cloud-preferred branch:
the comparison score >= threshold is boundary inclusive. -/
theorem c5_boundary_cloud_preferred (m : AIManager) (prompt : String)
    (system : Option String)
    (hm : m.mode = "hybrid")
    (ht : normalized_score prompt = m.decision_threshold) :
    m.generate prompt system false =
      hybridGen m.cloud_llm m.local_llm BackendCall.cloudGen BackendCall.localGen
        prompt (m.resolve_system system) := by
  have hb : m.should_use_cloud prompt = true := by
    simp [AIManager.should_use_cloud, ht, ge_iff_le]
  rw [AIManager.generate]
  simp [hm, hb]

/-- Hybrid manager with decision threshold 0.4. -/
def mgrC5 : AIManager := ⟨"hybrid", 2/5, false, none, bHello, bUnavail⟩

/-- Prompt containing exactly two complexity keywords, so its normalized
score is 2/5. -/
def promptTwoKw : String := "comprehensive research paper"

/-- C5 witness: a prompt scoring exactly the threshold 2/5 = 0.4 is
routed cloud-first on a concrete manager. -/
theorem c5_witness :
    mgrC5.mode = "hybrid" ∧ normalized_score promptTwoKw = mgrC5.decision_threshold ∧
    mgrC5.generate promptTwoKw none false =
      hybridGen mgrC5.cloud_llm mgrC5.local_llm BackendCall.cloudGen BackendCall.localGen
        promptTwoKw (mgrC5.resolve_system none) := by
  have hs : normalized_score promptTwoKw = 2/5 := by
    have h : complexity_score promptTwoKw = 2 := by decide
    rw [normalized_score, h]
    rw [show ((2 : ℕ) : ℚ) = 2 by norm_num]
    rw [min_eq_left (by norm_num : (2 : ℚ) / 5 ≤ 1)]
  exact ⟨rfl, hs, c5_boundary_cloud_preferred mgrC5 promptTwoKw none rfl hs⟩

/-- C10: for a mode string outside local, cloud and hybrid, both generate
and chat return the fixed fallback without invoking any backend. -/
theorem c10_unknown_mode (m : AIManager) (prompt : String) (system : Option String)
    (messages : List Turn) (force_cloud : Bool)
    (h1 : m.mode ≠ "local") (h2 : m.mode ≠ "cloud") (h3 : m.mode ≠ "hybrid") :
    m.generate prompt system force_cloud = (unableFallback, []) ∧
      m.chat messages force_cloud = (unableFallback, []) := by
  constructor
  · rw [AIManager.generate]
    simp [h1, h2, h3]
  · rw [AIManager.chat]
    simp [h1, h2, h3]

/-- Manager whose configured mode string is unknown. -/
def mgrC10 : AIManager := ⟨"banana", 1/2, false, none, bHello, bHello⟩

/-- C10 witness: the theorem applied to a concrete manager in an unknown
mode, with available backends that are nevertheless not invoked. -/
theorem c10_witness :
    mgrC10.mode ≠ "local" ∧ mgrC10.mode ≠ "cloud" ∧ mgrC10.mode ≠ "hybrid" ∧
    mgrC10.generate "hi" none false = (unableFallback, []) ∧
      mgrC10.chat [⟨"user", "hi"⟩] false = (unableFallback, []) := by
  refine ⟨by decide, by decide, by decide, ?_, ?_⟩
  · exact (c10_unknown_mode mgrC10 "hi" none [⟨"user", "hi"⟩] false
      (by decide) (by decide) (by decide)).1
  · exact (c10_unknown_mode mgrC10 "hi" none [⟨"user", "hi"⟩] false
      (by decide) (by decide) (by decide)).2

/- ===== Claims C7 and C9 ===== -/

/-- The selection loop keeps the running total, hence the total text
length of the selected documents, within the budget. -/
theorem bcp_total_le (budget : Nat) : ∀ (docs : List String) (total : Nat),
    total ≤ budget → total + sumLen (build_context_parts budget docs total) ≤ budget
  | [], total, h => by simpa [build_context_parts, sumLen] using h
  | doc :: docs, total, h => by
    rw [build_context_parts]
    split
    · simpa [sumLen] using h
    · rename_i hle
      have h2 : total + doc.length ≤ budget := by omega
      have ih := bcp_total_le budget docs (total + doc.length) h2
      simp only [sumLen, List.map_cons, List.sum_cons] at ih ⊢
      omega

/-- The selected documents form a prefix of the ranked list: documents
are taken strictly in rank order. -/
theorem bcp_prefix_of (budget : Nat) : ∀ (docs : List String) (total : Nat),
    build_context_parts budget docs total <+: docs
  | [], _ => by simp [build_context_parts]
  | doc :: docs, total => by
    rw [build_context_parts]
    split
    · exact List.nil_prefix
    · exact List.cons_prefix_cons.mpr ⟨rfl, bcp_prefix_of budget docs (total + doc.length)⟩

/-- When a document follows the selected prefix, it is the first
overflowing one: adding its length to the running total would exceed the
budget, and the loop stopped there without testing later documents. -/
theorem bcp_stop_overflow (budget : Nat) : ∀ (docs : List String) (total : Nat)
    (d : String) (rest : List String),
    docs.drop (build_context_parts budget docs total).length = d :: rest →
    budget < total + sumLen (build_context_parts budget docs total) + d.length
  | [], total, d, rest, h => by simp [build_context_parts] at h
  | doc :: docs, total, d, rest, h => by
    rw [build_context_parts] at h ⊢
    split_ifs at h ⊢ with hc
    · simp only [List.length_nil, List.drop_zero, List.cons.injEq] at h
      obtain ⟨rfl, -⟩ := h
      simp only [sumLen, List.map_nil, List.sum_nil]
      omega
    · simp only [List.length_cons, List.drop_succ_cons] at h
      have ih := bcp_stop_overflow budget docs (total + doc.length) d rest h
      simp only [sumLen, List.map_cons, List.sum_cons] at ih ⊢
      omega

/-- Length of a blank-line join: the sum of the part lengths plus two
characters per separator. -/
theorem length_joinSep_nn : ∀ (l : List String),
    (joinSep "\n\n" l).length = sumLen l + 2 * (l.length - 1)
  | [] => by simp [joinSep, sumLen]
  | [d] => by simp [joinSep, sumLen]
  | d :: d2 :: ds => by
    have ih := length_joinSep_nn (d2 :: ds)
    show (d ++ "\n\n" ++ joinSep "\n\n" (d2 :: ds)).length = _
    rw [String.length_append, String.length_append, ih]
    have h2 : ("\n\n").length = 2 := rfl
    rw [h2]
    simp only [sumLen, List.map_cons, List.sum_cons, List.length_cons]
    omega

/-- Document of 1500 characters. -/
def doc1500 : String := String.mk (List.replicate 1500 'x')

/-- Document of 600 characters. -/
def doc600 : String := String.mk (List.replicate 600 'y')

/-- Document of 10 characters. -/
def doc10 : String := String.mk (List.replicate 10 'z')

/-- C7: context assembly is first-fit-by-rank: the selected documents are
a prefix of the ranked list, their total text length stays within the
budget, and the first unselected document is one whose length added to
the running total would exceed the budget (later shorter documents are
not tested). For lengths 1500, 600, 10 under budget 2000 only the first
document is returned. -/
theorem c7_first_fit_by_rank (budget : Nat) (docs : List String) :
    (build_context_parts budget docs 0 <+: docs ∧
     sumLen (build_context_parts budget docs 0) ≤ budget ∧
     ∀ d rest, docs.drop (build_context_parts budget docs 0).length = d :: rest →
       budget < sumLen (build_context_parts budget docs 0) + d.length) ∧
    build_context max_context_length [doc1500, doc600, doc10] = doc1500 := by
  refine ⟨⟨bcp_prefix_of budget docs 0, ?_, ?_⟩, ?_⟩
  · have h := bcp_total_le budget docs 0 (Nat.zero_le _)
    omega
  · intro d rest h
    have h2 := bcp_stop_overflow budget docs 0 d rest h
    omega
  · have hmk : ∀ l : List Char, (String.mk l).length = l.length := fun l => rfl
    have l1 : doc1500.length = 1500 := by rw [doc1500, hmk, List.length_replicate]
    have l2 : doc600.length = 600 := by rw [doc600, hmk, List.length_replicate]
    rw [build_context, max_context_length]
    rw [build_context_parts]
    rw [if_neg (by omega : ¬ (0 + doc1500.length > 2000))]
    rw [build_context_parts]
    rw [if_pos (by omega : 0 + doc1500.length + doc600.length > 2000)]
    rfl

/-- C7 witness: the stop condition instantiated on a concrete overflow:
with budget 4 and documents of lengths 2 and 3, the second document is
rejected because 2 + 3 exceeds 4. -/
theorem c7_witness :
    ["aa", "bbb"].drop (build_context_parts 4 ["aa", "bbb"] 0).length = ["bbb"] ∧
    4 < sumLen (build_context_parts 4 ["aa", "bbb"] 0) + "bbb".length :=
  ⟨by decide, (c7_first_fit_by_rank 4 ["aa", "bbb"]).1.2.2 "bbb" [] (by decide)⟩

/-- C9: the budget check counts only document text lengths, never the
blank-line separators: the selected text lengths always sum to at most
the budget, while the returned context string has length equal to that
sum plus 2*(k-1) for k selected documents, and so can exceed the budget,
as the concrete instance with budget 4 and two 2-character documents
shows (context length 6). -/
theorem c9_separators_uncounted (budget : Nat) (docs : List String) :
    sumLen (build_context_parts budget docs 0) ≤ budget ∧
    (build_context budget docs).length =
      sumLen (build_context_parts budget docs 0) +
        2 * ((build_context_parts budget docs 0).length - 1) ∧
    (build_context 4 ["aa", "bb"]).length = 4 + 2 * (2 - 1) ∧
    4 < (build_context 4 ["aa", "bb"]).length := by
  refine ⟨?_, ?_, by decide, by decide⟩
  · have h := bcp_total_le budget docs 0 (Nat.zero_le _)
    omega
  · rw [build_context]
    exact length_joinSep_nn _

/- ===== Claims C4, C6, C8 ===== -/

/-- The length of a right-take is the minimum of the count and the list
length. -/
theorem length_rtake {α : Type} (l : List α) (n : Nat) :
    (l.rtake n).length = min n l.length := by
  simp only [List.rtake, List.length_drop]
  omega

/-- Right-takes compose: a smaller right-take of a right-take is the
smaller right-take of the original list. -/
theorem rtake_rtake_of_le {α : Type} (l : List α) {a b : Nat} (h : a ≤ b) :
    (l.rtake b).rtake a = l.rtake a := by
  simp only [List.rtake, List.length_drop, List.drop_drop]
  congr 1
  omega

/-- A right-take of at least the whole length is the identity. -/
theorem rtake_of_len_le {α : Type} (l : List α) {n : Nat} (h : l.length ≤ n) :
    l.rtake n = l := by
  simp [List.rtake, Nat.sub_eq_zero_of_le h]

/-- The list effect of one add_conversation call on the conversation
log: append, then trim when over the cap. -/
def stepCap {α : Type} (cap : Nat) (l : List α) (e : α) : List α :=
  saveList cap (l ++ [e])

/-- For a positive cap, appending to the last-cap window of a log equals
the last-cap window of the extended log. -/
theorem stepCap_rtake {α : Type} (cap : Nat) (hcap : 1 ≤ cap) (s : List α) (e : α) :
    stepCap cap (s.rtake cap) e = (s ++ [e]).rtake cap := by
  rcases Nat.lt_or_ge s.length cap with hlt | hge
  · rw [rtake_of_len_le s (Nat.le_of_lt hlt)]
    rw [stepCap, saveList, if_neg (by simp; omega)]
    rw [rtake_of_len_le _ (by simp; omega)]
  · have hlen : (s.rtake cap).length = cap := by rw [length_rtake]; omega
    rw [stepCap, saveList, if_pos (by simp [hlen])]
    rw [pySliceLast, if_neg (by omega)]
    obtain ⟨k, rfl⟩ : ∃ k, cap = k + 1 := ⟨cap - 1, by omega⟩
    rw [List.rtake_concat_succ, List.rtake_concat_succ]
    rw [rtake_rtake_of_le s (Nat.le_succ k)]

/-- Folding append-and-trim over a sequence of entries keeps exactly the
last-cap window of everything appended so far. -/
theorem foldl_stepCap {α : Type} (cap : Nat) (hcap : 1 ≤ cap) :
    ∀ (ts s : List α), List.foldl (stepCap cap) (s.rtake cap) ts = (s ++ ts).rtake cap
  | [], s => by simp
  | e :: ts, s => by
    rw [List.foldl_cons, stepCap_rtake cap hcap s e,
      foldl_stepCap cap hcap ts (s ++ [e])]
    simp

/-- Special case of foldl_stepCap starting from the empty log. -/
theorem foldl_stepCap_nil {α : Type} (cap : Nat) (hcap : 1 ≤ cap) (ts : List α) :
    List.foldl (stepCap cap) [] ts = ts.rtake cap := by
  have h := foldl_stepCap cap hcap ts []
  simpa using h

/-- The conversation-log component of one add_conversation call is the
append-and-trim list step. -/
theorem appendEntry_conversations (mem : Memory) (e : ConversationEntry) :
    (mem.appendEntry e).conversations = stepCap mem.max_history mem.conversations e := rfl

/-- add_conversation leaves the configured cap unchanged. -/
theorem appendEntry_max_history (mem : Memory) (e : ConversationEntry) :
    (mem.appendEntry e).max_history = mem.max_history := rfl

/-- Folding add_conversation calls acts on the log component as the
append-and-trim fold, and preserves the cap. -/
theorem foldl_appendEntry : ∀ (ts : List ConversationEntry) (mem : Memory),
    (List.foldl Memory.appendEntry mem ts).conversations =
      List.foldl (stepCap mem.max_history) mem.conversations ts ∧
    (List.foldl Memory.appendEntry mem ts).max_history = mem.max_history
  | [], mem => ⟨rfl, rfl⟩
  | e :: ts, mem => by
    have ih := foldl_appendEntry ts (mem.appendEntry e)
    rw [appendEntry_max_history, appendEntry_conversations] at ih
    rw [List.foldl_cons, List.foldl_cons]
    exact ih

/-- C6 (amended): on a store with cap at least 1 that starts empty,
after every one of cap+5 appends the retained log has length at most
cap, and after all of them it holds exactly the last cap turns: the
oldest 5 are evicted in FIFO order and the rest keep their relative
order. (The unamended claim fails only at cap = 0, where the python
slice conversations[-0:] keeps the whole list.) -/
theorem c6_amended (mem : Memory) (cap : Nat) (ts : List ConversationEntry)
    (hcap : 1 ≤ cap) (hmax : mem.max_history = cap) (hnil : mem.conversations = [])
    (hts : ts.length = cap + 5) :
    (∀ k, ((ts.take k).foldl Memory.appendEntry mem).conversations.length ≤ cap) ∧
    (ts.foldl Memory.appendEntry mem).conversations = ts.drop 5 := by
  have key : ∀ us : List ConversationEntry,
      (us.foldl Memory.appendEntry mem).conversations = us.rtake cap := by
    intro us
    have h := (foldl_appendEntry us mem).1
    rw [hmax, hnil] at h
    rw [h, foldl_stepCap_nil cap hcap us]
  constructor
  · intro k
    rw [key (ts.take k), length_rtake]
    omega
  · rw [key ts, List.rtake]
    congr 1
    omega

/-- Store with cap 1 and no history. -/
def memC6 : Memory := ⟨1, [], fun _ => none⟩

/-- Six concrete conversation entries. -/
def entsC6 : List ConversationEntry :=
  [⟨"1", "u1", "a1", []⟩, ⟨"2", "u2", "a2", []⟩, ⟨"3", "u3", "a3", []⟩,
   ⟨"4", "u4", "a4", []⟩, ⟨"5", "u5", "a5", []⟩, ⟨"6", "u6", "a6", []⟩]

/-- C6 witness: the amended theorem applied to cap 1 and six appends. -/
theorem c6_witness :
    1 ≤ memC6.max_history ∧ memC6.conversations = [] ∧
    entsC6.length = memC6.max_history + 5 ∧
    (entsC6.foldl Memory.appendEntry memC6).conversations = entsC6.drop 5 :=
  ⟨by decide, rfl, by decide,
    (c6_amended memC6 1 entsC6 (by decide) rfl rfl (by decide)).2⟩

/-- Store with cap 0 and no history. -/
def memZ : Memory := ⟨0, [], fun _ => none⟩

/-- Five identical conversation entries. -/
def entsZ : List ConversationEntry := List.replicate 5 ⟨"t", "u", "a", []⟩

/-- C6 counterexample: with cap 0 the python slice conversations[-0:]
keeps everything, so after cap+5 = 5 appends the log has 5 entries and
the claimed bound length <= cap fails. -/
theorem c6_counterexample :
    entsZ.length = memZ.max_history + 5 ∧
    ¬ ((entsZ.foldl Memory.appendEntry memZ).conversations.length ≤ memZ.max_history) := by
  decide

/-- C8 (amended): recentTurns(n) is a suffix of the log (so turns stay
oldest first); for n >= 1 it has exactly min(n, length) turns, while for
n = 0 the python slice conversations[-0:] returns the whole log, not the
empty sequence. -/
theorem c8_amended (mem : Memory) (n : Nat) :
    mem.get_recent_conversations n <:+ mem.conversations ∧
    (mem.get_recent_conversations n).length =
      (if n = 0 then mem.conversations.length else min n mem.conversations.length) := by
  constructor
  · rw [Memory.get_recent_conversations, pySliceLast]
    split
    · exact List.suffix_refl _
    · rw [List.rtake]
      exact List.drop_suffix _ _
  · by_cases h : n = 0
    · simp [Memory.get_recent_conversations, pySliceLast, h]
    · rw [Memory.get_recent_conversations, pySliceLast, if_neg h, if_neg h, length_rtake]

/-- Store holding one conversation entry. -/
def memC8 : Memory := ⟨1000, [⟨"t", "hi", "yo", []⟩], fun _ => none⟩

/-- C8 counterexample: recentTurns(0) on a one-entry log returns that
entry, not the empty sequence. -/
theorem c8_counterexample :
    memC8.get_recent_conversations 0 = [⟨"t", "hi", "yo", []⟩] ∧
    memC8.get_recent_conversations 0 ≠ [] := by
  decide

/-- Python int() truncation agrees with the floor on nonnegative
rationals. -/
theorem pyInt_nonneg_floor (q : ℚ) (hq : 0 ≤ q) : pyInt q = ⌊q⌋ := by
  rw [pyInt, Rat.floor_def]
  exact Int.tdiv_eq_ediv (Rat.num_nonneg.mpr hq) (by positivity)

/-- On any store where voice_rate is absent, the smoothed update with
newValue 200 and rate 0.1 starts from the default 175, computes 177.5,
truncates with int() and stores 177. -/
theorem update_preferences_absent (mem : Memory)
    (habs : mem.user_preferences "voice_rate" = none) :
    (LearningManager.update_preferences (1/10) mem
        [("preferred_voice_rate", 200)]).get_preference "voice_rate" 175 = 177 := by
  rw [LearningManager.update_preferences]
  rw [if_neg (by decide : ¬ (([("preferred_voice_rate", (200 : ℚ))] : List (String × ℚ)) = []))]
  have hlk : ([("preferred_voice_rate", (200 : ℚ))] : List (String × ℚ)).lookup
      "preferred_voice_rate" = some 200 := rfl
  rw [hlk]
  have hcur : mem.get_preference "voice_rate" 175 = 175 := by
    rw [Memory.get_preference, habs]
    rfl
  simp only [hcur]
  have harith : (175 : ℚ) * (1 - 1/10) + 200 * (1/10) = 355/2 := by norm_num
  rw [harith]
  have hpy : pyInt ((355 : ℚ)/2) = 177 := by
    rw [pyInt_nonneg_floor _ (by norm_num)]
    norm_num
  rw [hpy]
  rw [Memory.get_preference, Memory.set_preference]
  norm_num

/-- C4 (amended): the smoothed preference update computes
current*(1-rate) + newValue*rate initialized from the default 175 when
the key is absent, but stores the int()-truncated value: with
newValue=200 and rate=0.1 the computed 177.5 is stored as 177. -/
theorem c4_amended (mem : Memory)
    (habs : mem.user_preferences "voice_rate" = none) :
    (LearningManager.update_preferences (1/10) mem
        [("preferred_voice_rate", 200)]).get_preference "voice_rate" 175 = 177 :=
  update_preferences_absent mem habs

/-- Empty preference store. -/
def memP : Memory := ⟨1000, [], fun _ => none⟩

/-- C4 witness: the amended theorem applied to a concrete empty store. -/
theorem c4_witness :
    memP.user_preferences "voice_rate" = none ∧
    (LearningManager.update_preferences (1/10) memP
        [("preferred_voice_rate", 200)]).get_preference "voice_rate" 175 = 177 :=
  ⟨rfl, c4_amended memP rfl⟩

/-- C4 counterexample: the stored value after the update is 177, not the
claimed 177.5. -/
theorem c4_counterexample :
    (LearningManager.update_preferences (1/10) memP
        [("preferred_voice_rate", 200)]).get_preference "voice_rate" 175 = 177 ∧
    (LearningManager.update_preferences (1/10) memP
        [("preferred_voice_rate", 200)]).get_preference "voice_rate" 175 ≠ 177.5 := by
  have h := update_preferences_absent memP rfl
  refine ⟨h, ?_⟩
  rw [h]
  norm_num
